import Mathlib

/-!
# mb-neuro: formal verification of the EPIC–secuTrial reconciliation engine

This development embeds, in Lean 4, the parts of the `mb-neuro` repository
that the specification's claims speak about:

* the Sequelize model declarations of the clinical field catalog
  (`src/models/stroke_lab.js`, `stroke_encounters.js`, `stroke_monitor.js`,
  `stroke_medication.js` — which also contains `epic_imaging` —
  and `stroke_flowsheet.js`), transcribed attribute by attribute; and
* the reconciliation engine (Dataset Aligner, Value Normalizer, Field
  Comparator, Statistics Aggregator, Report Builder).  The engine's Python
  implementation (`validation-service/src/main.py`,
  `validators/comparison.py`) is not part of the available sources — the
  repository only ships its documentation — so each engine definition below
  is modelled from the specification text and marked as such in its doc
  comment.
-/

namespace MBNeuro

/-! ## Sequelize field-catalog embedding

A shallow embedding of the attribute declarations appearing in the
`sequelize.define` calls of the five model files.  Each attribute records
exactly what the source text declares: its name, its `DataTypes.*` type,
whether `allowNull` is written (and with which value), and whether
`primaryKey` / `autoIncrement` are set.  Sequelize's `unique` option is
never written in any of these files; the `unique` field below transcribes
that absence as `false` (Sequelize's default). -/

/-- The `DataTypes.*` constants used across the model files. -/
inductive SqlType where
  | bigint
  | integer
  | float
  | string
  | boolean
  | date
  | time
deriving DecidableEq, Repr

/-- One attribute of a `sequelize.define` call: name, declared type, the
`allowNull` option as written in the source (`none` when the option is
absent), and the `primaryKey` / `autoIncrement` / `unique` options
(`false` when absent, which is Sequelize's default). -/
structure SequelizeAttr where
  name : String
  dtype : SqlType
  allowNull : Option Bool
  primaryKey : Bool
  autoIncrement : Bool
  unique : Bool
deriving DecidableEq, Repr

/-- Shorthand for a plain nullable column (`allowNull: true`, no key options). -/
def col (n : String) (t : SqlType) : SequelizeAttr :=
  ⟨n, t, some true, false, false, false⟩

/-- `epic_lab` from `src/models/stroke_lab.js`. -/
def epic_lab : List SequelizeAttr :=
  [ ⟨"id", .bigint, none, true, true, false⟩,
    ⟨"idCase", .string, none, false, false, false⟩,
    ⟨"idPatient", .bigint, some false, false, false, false⟩,
    col "FID" .integer, col "SSR" .integer,
    col "inr" .float, col "glucose" .float, col "creatinine" .float,
    col "cholesterol_total" .float, col "cholesterol_ldl" .float,
    col "admis_platelets" .integer, col "admis_haem" .float,
    col "admis_lecuco" .float, col "admis_crp" .float,
    col "level_doac" .float, col "perfusion_type" .string,
    col "perfusion_result" .string, col "onset_treat_time" .date,
    col "door_treat_time" .date, col "treat_iat" .boolean,
    col "iat_start" .date, col "onset_iat_time" .date,
    col "door_iat_time" .date, col "createdAt" .date, col "updatedAt" .date ]

/-- `epic_encounter` from `src/models/stroke_encounters.js`. -/
def epic_encounter : List SequelizeAttr :=
  [ ⟨"id", .bigint, none, true, true, false⟩,
    ⟨"idCase", .string, none, false, false, false⟩,
    ⟨"idPatient", .bigint, some false, false, false, false⟩,
    col "FID" .integer, col "SSR" .integer,
    col "name_last" .string, col "name_first" .string,
    col "birth_date" .date, col "sex" .string, col "non_swiss" .boolean,
    col "zip" .string, col "arrival_date" .date, col "arrival_time" .time,
    col "height" .integer, col "weight" .integer, col "bmi" .float,
    col "transport" .string, col "living_pre" .string,
    col "discharge_date" .date, col "discharge_time" .time,
    col "discharge_destinat" .string, col "age" .integer,
    col "createdAt" .date, col "updatedAt" .date ]

/-- `epic_monitor` from `src/models/stroke_monitor.js`. -/
def epic_monitor : List SequelizeAttr :=
  [ ⟨"id", .bigint, none, true, true, false⟩,
    ⟨"idCase", .string, none, false, false, false⟩,
    ⟨"idPatient", .bigint, some false, false, false, false⟩,
    col "FID" .integer, col "SSR" .integer,
    col "INCLUSION_STROKE_DOCUMENTATION" .boolean,
    col "INCLUSION_STROKE_FLAG" .boolean,
    col "DOOR_TO_NEEDLE" .integer, col "GROIN_PUNCTURE" .date,
    col "DOOR_TO_GROIN" .integer, col "DOOR_TO_RECAN" .integer,
    col "ELIG_IA" .boolean, col "ELIG_IV" .boolean,
    col "createdAt" .date, col "updatedAt" .date ]

/-- `epic_medication` from `src/models/stroke_medication.js`. -/
def epic_medication : List SequelizeAttr :=
  [ ⟨"id", .bigint, none, true, true, false⟩,
    ⟨"idCase", .string, none, false, false, false⟩,
    ⟨"idPatient", .bigint, some false, false, false, false⟩,
    col "FID" .integer, col "SSR" .integer,
    col "aspirin_pre" .boolean, col "clopidogrel_pre" .boolean,
    col "prasugrel_pre" .boolean, col "ticagrelor_pre" .boolean,
    col "dipyridamole_pre" .boolean, col "vka_pre" .boolean,
    col "vka_inr" .float, col "rivaroxaban_pre" .boolean,
    col "dabigatran_pre" .boolean, col "apixaban_pre" .boolean,
    col "edoxaban_pre" .boolean, col "parenteralanticg_pre" .boolean,
    col "antihypertensive_pre" .boolean, col "antilipid_pre" .boolean,
    col "hormone_pre" .boolean, col "treat_antiplatelet" .boolean,
    col "treat_anticoagulant" .boolean, col "treat_ivt" .boolean,
    col "iat_rtpa" .boolean, col "iat_uk" .boolean,
    col "createdAt" .date, col "updatedAt" .date ]

/-- `epic_imaging`, the second model defined in `src/models/stroke_medication.js`. -/
def epic_imaging : List SequelizeAttr :=
  [ ⟨"id", .bigint, none, true, true, false⟩,
    ⟨"idCase", .string, none, false, false, false⟩,
    ⟨"idPatient", .bigint, some false, false, false, false⟩,
    col "FID" .integer, col "SSR" .integer,
    col "firstimage_type" .string, col "firstimage_result" .string,
    col "firstimage_time" .date, col "firstangio_type" .string,
    col "iat_mech" .boolean, col "follow_mra" .boolean,
    col "follow_cta" .boolean, col "follow_ultrasound" .boolean,
    col "follow_dsa" .boolean, col "follow_tte" .boolean,
    col "follow_tee" .boolean, col "follow_holter" .boolean,
    col "createdAt" .date, col "updatedAt" .date ]

/-- `epic_flowsheet` from `src/models/stroke_flowsheet.js`. -/
def epic_flowsheet : List SequelizeAttr :=
  [ ⟨"id", .bigint, none, true, true, false⟩,
    ⟨"idCase", .string, none, false, false, false⟩,
    ⟨"idPatient", .bigint, some false, false, false, false⟩,
    col "FID" .integer, col "SSR" .integer,
    col "nih_admission" .integer, col "gcs_admission" .integer,
    col "bp_syst" .integer, col "bp_diast" .integer,
    col "ivt_start_date" .date, col "ivt_start_time" .time,
    col "rtpa_dose" .float, col "mca" .string, col "aca" .string,
    col "pca" .string, col "vertebrobasilar" .string,
    col "firstangio_result" .string, col "prostheticvalves" .string,
    col "stroke_pre" .boolean, col "tia_pre" .boolean,
    col "ich_pre" .boolean, col "hypertension" .boolean,
    col "diabetes" .boolean, col "hyperlipidemia" .boolean,
    col "smoking" .boolean, col "atrialfib" .boolean,
    col "chd" .boolean, col "lowoutput" .boolean, col "pad" .boolean,
    col "decompression" .boolean, col "iat_stentintracran" .boolean,
    col "iat_stentextracran" .boolean,
    col "createdAt" .date, col "updatedAt" .date ]

/-- The six clinical domain models of the field catalog, by model name. -/
def fieldCatalog : List (String × List SequelizeAttr) :=
  [ ("epic_lab", epic_lab), ("epic_encounter", epic_encounter),
    ("epic_monitor", epic_monitor), ("epic_medication", epic_medication),
    ("epic_imaging", epic_imaging), ("epic_flowsheet", epic_flowsheet) ]

/-- The schema shape asserted for one model of the field catalog: the
auto-increment surrogate `id` is the only primary key; `FID` and `SSR` are
present, declared as nullable integers with no uniqueness constraint and
without key status; `idCase` carries no uniqueness constraint; and
`idPatient` is the only attribute declared `allowNull: false`. -/
def surrogateKeyOnlySchema (attrs : List SequelizeAttr) : Prop :=
  (attrs.filter (·.primaryKey)).map (·.name) = ["id"] ∧
  (∀ a ∈ attrs, a.primaryKey → a.autoIncrement) ∧
  "FID" ∈ attrs.map (·.name) ∧
  "SSR" ∈ attrs.map (·.name) ∧
  (∀ a ∈ attrs, (a.name = "FID" ∨ a.name = "SSR") →
    a.dtype = .integer ∧ a.allowNull = some true ∧
    a.unique = false ∧ a.primaryKey = false) ∧
  (∀ a ∈ attrs, (a.name = "idCase" ∨ a.name = "FID" ∨ a.name = "SSR") →
    a.unique = false) ∧
  (∀ a ∈ attrs, (a.allowNull = some false ↔ a.name = "idPatient"))

/-! ## Canonical string form

Modelled from the spec: the engine's string handling ("strings trimmed and
case-folded", §4.2) — implemented over character lists so its algebraic
properties are provable.  ASCII case-folding is given by an explicit
upper→lower table. -/

/-- ASCII uppercase→lowercase pairs used for case-folding. -/
def lowerPairs : List (Char × Char) :=
  [ ('A','a'), ('B','b'), ('C','c'), ('D','d'), ('E','e'), ('F','f'),
    ('G','g'), ('H','h'), ('I','i'), ('J','j'), ('K','k'), ('L','l'),
    ('M','m'), ('N','n'), ('O','o'), ('P','p'), ('Q','q'), ('R','r'),
    ('S','s'), ('T','t'), ('U','u'), ('V','v'), ('W','w'), ('X','x'),
    ('Y','y'), ('Z','z') ]

/-- Case-fold one character via the table; characters outside the table are
unchanged. -/
def lowerChar (c : Char) : Char :=
  match lowerPairs.find? (fun p => decide (p.1 = c)) with
  | some p => p.2
  | none => c

/-- Whitespace characters removed by trimming. -/
def isWS (c : Char) : Bool :=
  decide (c = ' ' ∨ c = '\t' ∨ c = '\n' ∨ c = '\r')

/-- Trim leading and trailing whitespace from a character list. -/
def trimList (l : List Char) : List Char :=
  ((l.dropWhile isWS).reverse.dropWhile isWS).reverse

/-- Canonical character-list form: case-fold, then trim. -/
def canonList (l : List Char) : List Char :=
  trimList (l.map lowerChar)

/-- Canonical string form: trimmed and case-folded. -/
def canon (s : String) : String :=
  String.mk (canonList s.data)

/-! ## Value Normalizer data model

Modelled from the spec (§3, §4.2): the engine's Python implementation
(`validation-service/src/main.py` and `validators/comparison.py`) is not
among the available sources, so the value domain, Field Specification and
normalization rules below follow the specification text. -/

/-- A calendar date, the canonical date representation. -/
structure Date where
  year : Nat
  month : Nat
  day : Nat
deriving DecidableEq, Repr

/-- A cell value: the canonical missing sentinel `na`, the distinguishable
"unparseable" sentinel `bad`, or a typed payload. -/
inductive Val where
  | na
  | bad
  | vInt (n : Int)
  | vFloat (q : ℚ)
  | vBool (b : Bool)
  | vDate (d : Date)
  | vStr (s : String)
deriving DecidableEq, Repr

/-- The declared type of a comparable field (float carries its decimal
precision). -/
inductive FieldType where
  | intType
  | floatType (precision : Nat)
  | boolType
  | dateType
  | strType
deriving DecidableEq, Repr

/-- Field Specification: declared type, code→label mapping table,
missing-value sentinels, and numeric tolerance (epsilon). -/
structure FieldSpec where
  declType : FieldType
  mapping : List (String × String)
  sentinels : List String
  epsilon : ℚ

/-- Modelled from the spec: rule (1) of the Value Normalizer — a raw value
is missing when it is the canonical missing value or a string matching a
configured missing-value sentinel (sentinels compared in canonical form,
so the various missing indicators are treated consistently). -/
def isMissingVal (spec : FieldSpec) (v : Val) : Bool :=
  match v with
  | .na => true
  | .vStr s => decide (canon s ∈ spec.sentinels.map canon)
  | _ => false

/-- Modelled from the spec: rule (2) of the Value Normalizer — if the
field has a code→label mapping and the raw string matches a code (in
canonical form), replace it by the label before type coercion. -/
def applyMapping (spec : FieldSpec) (v : Val) : Val :=
  match v with
  | .vStr s =>
      match spec.mapping.find? (fun p => decide (canon p.1 = canon s)) with
      | some p => .vStr p.2
      | none => v
  | _ => v

/-- Decimal digit values. -/
def digitPairs : List (Char × Nat) :=
  [ ('0', 0), ('1', 1), ('2', 2), ('3', 3), ('4', 4),
    ('5', 5), ('6', 6), ('7', 7), ('8', 8), ('9', 9) ]

/-- The value of one decimal digit character, if it is one. -/
def digitVal (c : Char) : Option Nat :=
  match digitPairs.find? (fun p => decide (p.1 = c)) with
  | some p => some p.2
  | none => none

/-- Accumulate decimal digits left to right. -/
def parseNatAux : List Char → Nat → Option Nat
  | [], acc => some acc
  | c :: t, acc =>
      match digitVal c with
      | some d => parseNatAux t (acc * 10 + d)
      | none => none

/-- Parse a nonempty all-digit character list as a natural number. -/
def parseNatL : List Char → Option Nat
  | [] => none
  | c :: t => parseNatAux (c :: t) 0

/-- Parse an optionally `-`-signed decimal numeral. -/
def parseIntL : List Char → Option Int
  | '-' :: t => (parseNatL t).map (fun n => -(n : Int))
  | l => (parseNatL l).map (fun n => (n : Int))

/-- Split a character list on a separator character. -/
def splitOnChar (sep : Char) : List Char → List (List Char)
  | [] => [[]]
  | c :: t =>
      let r := splitOnChar sep t
      if c = sep then [] :: r
      else
        match r with
        | [] => [[c]]
        | h :: rt => (c :: h) :: rt

/-- Parse a nonnegative decimal numeral, with an optional fractional part,
into a rational. -/
def parseRatNonnegL (l : List Char) : Option ℚ :=
  match splitOnChar '.' l with
  | [i] => (parseNatL i).map (fun n => (n : ℚ))
  | [i, f] =>
      match parseNatL i, parseNatL f with
      | some a, some b => some ((a : ℚ) + (b : ℚ) / (10 : ℚ) ^ f.length)
      | _, _ => none
  | _ => none

/-- Standard numeric parsing of a decimal numeral (optionally signed, with
an optional fractional part) into a rational. -/
def parseRat (s : String) : Option ℚ :=
  match s.data with
  | '-' :: t => (parseRatNonnegL t).map (fun q => -q)
  | l => parseRatNonnegL l

/-- Parse an ISO `YYYY-MM-DD` date. -/
def parseDateIso (l : List Char) : Option Date :=
  match (splitOnChar '-' l).map parseNatL with
  | [some y, some m, some d] =>
      if 1 ≤ m ∧ m ≤ 12 ∧ 1 ≤ d ∧ d ≤ 31 then some ⟨y, m, d⟩ else none
  | _ => none

/-- Parse a `DD.MM.YYYY` date. -/
def parseDateDots (l : List Char) : Option Date :=
  match (splitOnChar '.' l).map parseNatL with
  | [some d, some m, some y] =>
      if 1 ≤ m ∧ m ≤ 12 ∧ 1 ≤ d ∧ d ≤ 31 then some ⟨y, m, d⟩ else none
  | _ => none

/-- Modelled from the spec: dates are parsed under a list of accepted
formats, first successful parse wins, normalized to a single canonical
representation. -/
def parseDateAny (s : String) : Option Date :=
  match parseDateIso s.data with
  | some d => some d
  | none => parseDateDots s.data

/-- Round a rational to `p` decimal places. -/
def roundTo (p : Nat) (q : ℚ) : ℚ :=
  ((round (q * (10 : ℚ) ^ p) : ℤ) : ℚ) / (10 : ℚ) ^ p

/-- Truthy literal encodings recognized for boolean standardization. -/
def truthyLits : List String := ["y", "yes", "true", "t", "1", "ja", "j"]

/-- Falsy literal encodings recognized for boolean standardization. -/
def falsyLits : List String := ["n", "no", "false", "f", "0", "nein"]

/-- Modelled from the spec: rule (3) of the Value Normalizer — coercion to
the declared type.  Integers and floats use standard numeric parsing,
floats are rounded to the declared precision; booleans are standardized
from several truthy/falsy literal encodings; dates are parsed under the
accepted formats; strings are trimmed and case-folded.  A non-missing
value that cannot be coerced becomes the distinguishable `bad` result
rather than an error. -/
def coerce (t : FieldType) (v : Val) : Val :=
  match t, v with
  | .intType, .vInt n => .vInt n
  | .intType, .vStr s =>
      match parseIntL (canon s).data with
      | some n => .vInt n
      | none => .bad
  | .floatType p, .vFloat q => .vFloat (roundTo p q)
  | .floatType p, .vInt n => .vFloat (roundTo p (n : ℚ))
  | .floatType p, .vStr s =>
      match parseRat (canon s) with
      | some q => .vFloat (roundTo p q)
      | none => .bad
  | .boolType, .vBool b => .vBool b
  | .boolType, .vStr s =>
      if canon s ∈ truthyLits then .vBool true
      else if canon s ∈ falsyLits then .vBool false
      else .bad
  | .dateType, .vDate d => .vDate d
  | .dateType, .vStr s =>
      match parseDateAny (canon s) with
      | some d => .vDate d
      | none => .bad
  | .strType, .vStr s => .vStr (canon s)
  | _, _ => .bad

/-- Modelled from the spec (§4.2): the Value Normalizer — missing-value
canonicalization, then the code→label mapping, then type coercion. -/
def normalize (spec : FieldSpec) (v : Val) : Val :=
  if isMissingVal spec v then .na
  else coerce spec.declType (applyMapping spec v)

/-! ## Field Comparator -/

/-- The Comparison Outcome taxonomy. -/
inductive OutcomeKind where
  | matched
  | mismatch
  | missingInSource
  | missingInDestination
  | missingInBoth
  | typeIncompatible
deriving DecidableEq, Repr

/-- Modelled from the spec (§4.3): type-specific equality of two present,
parseable normalized values — integers exactly, floats within the field's
epsilon, booleans and dates after canonicalization, strings after
case-fold and whitespace normalization. -/
def valEq (spec : FieldSpec) (a b : Val) : Bool :=
  match a, b with
  | .vInt m, .vInt n => decide (m = n)
  | .vFloat p, .vFloat q => decide (|p - q| ≤ spec.epsilon)
  | .vBool x, .vBool y => decide (x = y)
  | .vDate d, .vDate e => decide (d = e)
  | .vStr s, .vStr t => decide (canon s = canon t)
  | _, _ => false

/-- Modelled from the spec (§4.3): the Field Comparator — classify one
normalized source/destination value pair into an outcome kind, checking
the missing cases first, then the unparseable sentinel, then type-specific
equality. -/
def classify (spec : FieldSpec) (sv dv : Val) : OutcomeKind :=
  if sv = .na ∧ dv = .na then .missingInBoth
  else if sv = .na then .missingInSource
  else if dv = .na then .missingInDestination
  else if sv = .bad ∨ dv = .bad then .typeIncompatible
  else if valEq spec sv dv then .matched
  else .mismatch

/-- A field specification whose code→label mapping cannot re-fire: no
label, in canonical form, is itself a mapping code or a missing-value
sentinel.  Every specification without a mapping satisfies this. -/
def mappingStable (spec : FieldSpec) : Prop :=
  ∀ p ∈ spec.mapping,
    spec.mapping.find? (fun q => decide (canon q.1 = canon p.2)) = none ∧
    canon p.2 ∉ spec.sentinels.map canon

/-! ## Dataset Aligner and run pipeline

Modelled from the spec (§4.1, §7): records keyed by the composite
`(FID, SSR)` key, common-field computation, matched/side-only
partitioning, duplicate-key data-integrity errors, and the
empty-intersection fatal error. -/

/-- One record: composite `(FID, SSR)` key, the optional temporal anchor
used for month bucketing, and the raw cells by field name. -/
structure Row where
  key : Int × Int
  anchor : Option Date
  cells : String → Val

/-- One tabular dataset: its column names and its records. -/
structure Dataset where
  cols : List String
  rows : List Row

/-- The field configuration: one Field Specification per field name. -/
def FieldConfig : Type := String → FieldSpec

/-- The keys of a dataset, in record order. -/
def keysOf (ds : Dataset) : List (Int × Int) :=
  ds.rows.map (·.key)

/-- Modelled from the spec: the common fields — the intersection of the two
schemas (key fields are held apart from the columns). -/
def commonFields (src dst : Dataset) : List String :=
  src.cols.filter (fun c => decide (c ∈ dst.cols))

/-- How many records of a dataset carry the given key. -/
def keyCount (ds : Dataset) (k : Int × Int) : Nat :=
  (keysOf ds).countP (fun x => decide (x = k))

/-- The first key occurring more than once within a dataset, if any. -/
def firstDupKey (ds : Dataset) : Option (Int × Int) :=
  (keysOf ds).find? (fun k => decide (2 ≤ keyCount ds k))

/-- One Comparison Outcome: record key, field name, outcome kind, and the
normalized source and destination values. -/
structure Outcome where
  key : Int × Int
  field : String
  kind : OutcomeKind
  sourceValue : Val
  destValue : Val
deriving DecidableEq, Repr

/-- Find the record with the given key. -/
def findRow (ds : Dataset) (k : Int × Int) : Option Row :=
  ds.rows.find? (fun r => decide (r.key = k))

/-- The destination cell for a matched key (canonical missing when the key
is absent, which cannot happen for matched keys). -/
def dstCell (dst : Dataset) (k : Int × Int) (f : String) : Val :=
  match findRow dst k with
  | some r => r.cells f
  | none => .na

/-- Source records whose key is also present in the destination. -/
def matchedRows (src dst : Dataset) : List Row :=
  src.rows.filter (fun r => decide (r.key ∈ keysOf dst))

/-- Source records whose key is absent from the destination. -/
def srcOnlyRows (src dst : Dataset) : List Row :=
  src.rows.filter (fun r => decide (r.key ∉ keysOf dst))

/-- Destination records whose key is absent from the source. -/
def dstOnlyRows (src dst : Dataset) : List Row :=
  dst.rows.filter (fun r => decide (r.key ∉ keysOf src))

/-- Modelled from the spec: per matched record and per common field,
normalize both sides and classify. -/
def matchedOutcomes (cfg : FieldConfig) (src dst : Dataset) : List Outcome :=
  (matchedRows src dst).flatMap (fun r =>
    (commonFields src dst).map (fun f =>
      let sv := normalize (cfg f) (r.cells f)
      let dv := normalize (cfg f) (dstCell dst r.key f)
      ⟨r.key, f, classify (cfg f) sv dv, sv, dv⟩))

/-- Modelled from the spec: source-only keys feed `missing_in_destination`
outcomes for every common field, without per-field comparison. -/
def srcOnlyOutcomes (cfg : FieldConfig) (src dst : Dataset) : List Outcome :=
  (srcOnlyRows src dst).flatMap (fun r =>
    (commonFields src dst).map (fun f =>
      ⟨r.key, f, .missingInDestination, normalize (cfg f) (r.cells f), .na⟩))

/-- Modelled from the spec: destination-only keys feed `missing_in_source`
outcomes for every common field. -/
def dstOnlyOutcomes (cfg : FieldConfig) (src dst : Dataset) : List Outcome :=
  (dstOnlyRows src dst).flatMap (fun r =>
    (commonFields src dst).map (fun f =>
      ⟨r.key, f, .missingInSource, .na, normalize (cfg f) (r.cells f)⟩))

/-- The full Comparison Outcome set of one run. -/
def allOutcomes (cfg : FieldConfig) (src dst : Dataset) : List Outcome :=
  matchedOutcomes cfg src dst ++ srcOnlyOutcomes cfg src dst ++
    dstOnlyOutcomes cfg src dst

/-- Dataset-level structural errors that abort a run. -/
inductive EngineError where
  | duplicateKey (k : Int × Int)
  | noCommonFields
deriving DecidableEq, Repr

/-- Modelled from the spec (§4.1, §7): the run — abort with a
data-integrity error naming the duplicated key when either side has a
duplicate key, abort when the schemas share no field, and otherwise
produce the full outcome set. -/
def runValidation (cfg : FieldConfig) (src dst : Dataset) :
    Except EngineError (List Outcome) :=
  match firstDupKey src with
  | some k => .error (.duplicateKey k)
  | none =>
      match firstDupKey dst with
      | some k => .error (.duplicateKey k)
      | none =>
          if commonFields src dst = [] then .error .noCommonFields
          else .ok (allOutcomes cfg src dst)

/-- The outcomes a run produced (none when it aborted). -/
def producedOutcomes (r : Except EngineError (List Outcome)) : List Outcome :=
  match r with
  | .ok os => os
  | .error _ => []

/-! ## Statistics Aggregator and Report Builder

Modelled from the spec (§4.4, §4.5). -/

/-- Aggregation configuration: the reporting window (calendar months) and
the top-N size for the problematic-variable ranking. -/
structure AggConfig where
  window : List Nat
  topN : Nat

/-- The temporal anchor of the record with the given key in the source
dataset. -/
def anchorOf (src : Dataset) (k : Int × Int) : Option Date :=
  match findRow src k with
  | some r => r.anchor
  | none => none

/-- Overall view: tally of one outcome kind across all outcomes. -/
def overallCount (os : List Outcome) (k : OutcomeKind) : Nat :=
  os.countP (fun o => decide (o.kind = k))

/-- Monthly view, one bucket: the outcomes of records whose temporal
anchor is present and falls in calendar month `m`. -/
def monthlyBucket (src : Dataset) (os : List Outcome) (m : Nat) : List Outcome :=
  os.filter (fun o =>
    match anchorOf src o.key with
    | some d => decide (d.month = m)
    | none => false)

/-- Monthly view: one bucket per month of the reporting window. -/
def monthlyView (acfg : AggConfig) (src : Dataset) (os : List Outcome) :
    List (Nat × List Outcome) :=
  acfg.window.map (fun m => (m, monthlyBucket src os m))

/-- Per-variable total comparison volume of a field. -/
def volumeOf (os : List Outcome) (f : String) : Nat :=
  os.countP (fun o => decide (o.field = f))

/-- Per-variable mismatch tally of a field. -/
def mismatchCount (os : List Outcome) (f : String) : Nat :=
  os.countP (fun o => decide (o.field = f ∧ o.kind = .mismatch))

/-- Per-variable match tally of a field. -/
def matchCount (os : List Outcome) (f : String) : Nat :=
  os.countP (fun o => decide (o.field = f ∧ o.kind = .matched))

/-- Modelled from the spec: the derived per-variable mismatch rate,
`mismatches / (mismatches + matches)` (zero on an empty denominator). -/
def mismatchRate (os : List Outcome) (f : String) : ℚ :=
  if mismatchCount os f + matchCount os f = 0 then 0
  else (mismatchCount os f : ℚ) /
    ((mismatchCount os f : ℚ) + (matchCount os f : ℚ))

/-- The ranking order of the problematic-variable list: higher mismatch
rate first, ties broken by higher total comparison volume. -/
def rankLE (os : List Outcome) (f g : String) : Bool :=
  decide (mismatchRate os g < mismatchRate os f) ||
    (decide (mismatchRate os f = mismatchRate os g) &&
      decide (volumeOf os g ≤ volumeOf os f))

/-- The fields appearing in the outcome set that have a nonzero mismatch
rate. -/
def problemFields (os : List Outcome) : List String :=
  ((os.map (·.field)).dedup).filter (fun f => decide (mismatchRate os f ≠ 0))

/-- Modelled from the spec: the derived top-N most problematic variables —
fields with a nonzero mismatch rate, ordered by rate with ties broken by
volume, truncated to N. -/
def topProblematic (acfg : AggConfig) (os : List Outcome) : List String :=
  ((problemFields os).mergeSort (rankLE os)).take acfg.topN

/-- The outcome kinds carried into the Mismatch Pivot. -/
def reportable (k : OutcomeKind) : Bool :=
  match k with
  | .mismatch => true
  | .typeIncompatible => true
  | .missingInSource => true
  | .missingInDestination => true
  | .matched => false
  | .missingInBoth => false

/-- One Mismatch Pivot row: a record key and, per non-matching field of
that record, the outcome carrying the (source value, destination value)
column pair. -/
structure PivotRow where
  key : Int × Int
  cells : List Outcome
deriving DecidableEq, Repr

/-- The record keys having at least one reportable outcome, in first
appearance order. -/
def pivotKeys (os : List Outcome) : List (Int × Int) :=
  ((os.filter (fun o => reportable o.kind)).map (·.key)).dedup

/-- The pivot row of one record key: its reportable outcomes. -/
def pivotRow (os : List Outcome) (k : Int × Int) : PivotRow :=
  ⟨k, os.filter (fun o => decide (o.key = k) && reportable o.kind)⟩

/-- Modelled from the spec (§4.5): the Mismatch Pivot — one row per record
key with at least one outcome of kind `mismatch`, `type_incompatible`,
`missing_in_source` or `missing_in_destination`. -/
def mismatchPivot (os : List Outcome) : List PivotRow :=
  (pivotKeys os).map (pivotRow os)

/-- The aligned keys of a run, in outcome order: matched keys, then
source-only keys, then destination-only keys. -/
def alignedKeys (src dst : Dataset) : List (Int × Int) :=
  (matchedRows src dst).map (·.key) ++ (srcOnlyRows src dst).map (·.key) ++
    (dstOnlyRows src dst).map (·.key)

/-! ## Concrete run inputs used to exercise the theorems -/

/-- An integer field with two missing sentinels and no mapping. -/
def intSpecW : FieldSpec := ⟨.intType, [], ["", "na"], 0⟩

/-- A float-2 field with tolerance 1/100. -/
def floatSpecW : FieldSpec := ⟨.floatType 2, [], [""], 1 / 100⟩

/-- A string field whose mapping chains `a → b → c`: the configuration
under which normalization fails to be idempotent. -/
def chainSpecW : FieldSpec := ⟨.strType, [("a", "b"), ("b", "c")], [], 0⟩

/-- A configuration giving every field the integer specification. -/
def cfgW : FieldConfig := fun _ => intSpecW

/-- A record with the given key and the same value in every cell. -/
def rowW (k : Int × Int) (v : Val) : Row := ⟨k, none, fun _ => v⟩

/-- A source dataset in which two records share the key `(7, 3)`. -/
def dupSrcW : Dataset := ⟨["inr"], [rowW (7, 3) (.vInt 1), rowW (7, 3) (.vInt 2)]⟩

/-- A small clean destination dataset. -/
def dstW : Dataset := ⟨["inr"], [rowW (1, 1) (.vInt 1)]⟩

/-- A clean source dataset: keys `(1,1)` (matched) and `(2,2)` (source-only). -/
def srcW2 : Dataset :=
  ⟨["inr", "glucose"], [rowW (1, 1) (.vInt 5), rowW (2, 2) (.vInt 6)]⟩

/-- A clean destination dataset: keys `(1,1)` (matched) and `(3,3)`
(destination-only); common fields with `srcW2` are `["glucose"]`. -/
def dstW2 : Dataset :=
  ⟨["glucose", "weight"], [rowW (1, 1) (.vInt 5), rowW (3, 3) (.vInt 7)]⟩

/-- A record with an anchor date, for the monthly-bucketing scenario. -/
def anchorRowW (k : Int × Int) (d : Date) : Row := ⟨k, some d, fun _ => .na⟩

/-- A source dataset whose two records carry anchors `2024-06-15` (in the
April–December window) and `2024-02-01` (out of window). -/
def anchorSrcW : Dataset :=
  ⟨["glucose"], [anchorRowW (1, 1) ⟨2024, 6, 15⟩, anchorRowW (2, 2) ⟨2024, 2, 1⟩]⟩

/-- The April–December reporting window with the default top-10 ranking. -/
def acfgW : AggConfig := ⟨[4, 5, 6, 7, 8, 9, 10, 11, 12], 10⟩

/-- A concrete outcome on the matched key `(1,1)`. -/
def outW : Outcome := ⟨(1, 1), "glucose", .mismatch, .vInt 5, .vInt 6⟩

/-- A concrete outcome on the key `(2,2)` whose anchor is out of window. -/
def outW2 : Outcome := ⟨(2, 2), "glucose", .matched, .vInt 5, .vInt 5⟩

instance (attrs : List SequelizeAttr) : Decidable (surrogateKeyOnlySchema attrs) := by
  unfold surrogateKeyOnlySchema
  infer_instance

/-- C10: in every clinical domain model of the field catalog, the
auto-increment `id` is the only primary key, `FID`/`SSR` are nullable
integers with no uniqueness constraint, `idCase` has no uniqueness
constraint, and `idPatient` is the only attribute declared non-null — so
the data-model layer does not enforce presence or uniqueness of the
`(FID, SSR)` join key. -/
theorem c10_field_catalog_surrogate_key_only :
    ∀ m ∈ fieldCatalog, surrogateKeyOnlySchema m.2 := by
  decide

/-- C10 witness: the schema shape holds concretely for `epic_lab`. -/
theorem c10_field_catalog_surrogate_key_only_witness :
    surrogateKeyOnlySchema epic_lab :=
  c10_field_catalog_surrogate_key_only ("epic_lab", epic_lab) (by decide)

/-! ## Helper lemmas -/

/-- Nodup of a list, phrased through the decidable-equality occurrence
count used by the engine. -/
lemma nodup_iff_countP_le_one {α : Type} [DecidableEq α] (l : List α) :
    l.Nodup ↔ ∀ k, l.countP (fun x => decide (x = k)) ≤ 1 := by
  rw [List.nodup_iff_count_le_one]
  refine forall_congr' (fun k => ?_)
  have h : @List.count _ instBEqOfDecidableEq k l =
      l.countP (fun x => decide (x = k)) := by
    rw [@List.count_eq_countP _ instBEqOfDecidableEq]
    refine List.countP_congr (fun x _ => ?_)
    simp [instBEqOfDecidableEq]
  rw [h]

/-- In a nodup list, a member's occurrence count is exactly one. -/
lemma countP_eq_one_of_nodup_mem {α : Type} [DecidableEq α] {l : List α}
    (hl : l.Nodup) {a : α} (ha : a ∈ l) :
    l.countP (fun x => decide (x = a)) = 1 := by
  refine le_antisymm ((nodup_iff_countP_le_one l).mp hl a) ?_
  have : 0 < l.countP (fun x => decide (x = a)) :=
    List.countP_pos_iff.mpr ⟨a, ha, by simp⟩
  omega

/-- A dataset reports no duplicate key exactly when its keys are nodup. -/
lemma firstDupKey_eq_none_iff (ds : Dataset) :
    firstDupKey ds = none ↔ (keysOf ds).Nodup := by
  unfold firstDupKey
  rw [List.find?_eq_none, nodup_iff_countP_le_one]
  constructor
  · intro h a
    by_cases ha : a ∈ keysOf ds
    · have := h a ha
      simp only [decide_eq_true_eq, keyCount] at this ⊢
      omega
    · rw [List.countP_eq_zero.mpr]
      · omega
      · intro x hx
        simp only [decide_eq_true_eq]
        rintro rfl
        exact ha hx
  · intro h x _
    have := h x
    simp only [decide_eq_true_eq, keyCount]
    omega

/-- A reported duplicate key indeed occurs at least twice. -/
lemma firstDupKey_count (ds : Dataset) {k : Int × Int}
    (h : firstDupKey ds = some k) : 2 ≤ keyCount ds k := by
  have := List.find?_some h
  simpa using this

/-- When both key sets are nodup and a common field exists, the run
produces the full outcome set. -/
lemma runValidation_ok (cfg : FieldConfig) (src dst : Dataset)
    (hs : (keysOf src).Nodup) (hd : (keysOf dst).Nodup)
    (hc : commonFields src dst ≠ []) :
    runValidation cfg src dst = .ok (allOutcomes cfg src dst) := by
  unfold runValidation
  rw [(firstDupKey_eq_none_iff src).mpr hs, (firstDupKey_eq_none_iff dst).mpr hd]
  simp [hc]

/-! ## C1: the Field Comparator's case analysis -/

/-- C1: for each pair of normalized values the Field Comparator returns
exactly one outcome kind by the spec's case analysis — both missing ↦
`missing_in_both`; source missing, destination present ↦
`missing_in_source`; destination missing, source present ↦
`missing_in_destination`; otherwise either side unparseable ↦
`type_incompatible`; and only with both sides present and parseable does
type-specific equality decide `match` vs `mismatch`. -/
theorem c1_comparator_case_analysis (spec : FieldSpec) (sv dv : Val) :
    (sv = .na ∧ dv = .na → classify spec sv dv = .missingInBoth) ∧
    (sv = .na ∧ dv ≠ .na → classify spec sv dv = .missingInSource) ∧
    (sv ≠ .na ∧ dv = .na → classify spec sv dv = .missingInDestination) ∧
    (sv ≠ .na ∧ dv ≠ .na ∧ (sv = .bad ∨ dv = .bad) →
      classify spec sv dv = .typeIncompatible) ∧
    (sv ≠ .na ∧ dv ≠ .na ∧ sv ≠ .bad ∧ dv ≠ .bad →
      classify spec sv dv =
        if valEq spec sv dv then .matched else .mismatch) := by
  refine ⟨?_, ?_, ?_, ?_, ?_⟩
  · rintro ⟨h1, h2⟩
    simp [classify, h1, h2]
  · rintro ⟨h1, h2⟩
    simp [classify, h1, h2]
  · rintro ⟨h1, h2⟩
    simp [classify, h1, h2]
  · rintro ⟨h1, h2, h3⟩
    simp [classify, h1, h2, h3]
  · rintro ⟨h1, h2, h3, h4⟩
    simp [classify, h1, h2, h3, h4]

/-- C1 witness: the case analysis at concrete inputs — a missing source
against a present destination, and an unparseable source against a
present destination. -/
theorem c1_comparator_case_analysis_witness :
    classify intSpecW .na (.vInt 3) = .missingInSource ∧
    classify intSpecW .bad (.vInt 3) = .typeIncompatible :=
  ⟨(c1_comparator_case_analysis intSpecW .na (.vInt 3)).2.1
      ⟨rfl, by decide⟩,
   (c1_comparator_case_analysis intSpecW .bad (.vInt 3)).2.2.2.1
      ⟨by decide, by decide, Or.inl rfl⟩⟩

/-! ## C5: numeric tolerance -/

/-- C5: for a float field with positive tolerance ε, `v` and `v + ε/2`
classify as `match` while `v` and `v + 2ε` classify as `mismatch`; integer
fields are compared exactly. -/
theorem c5_float_tolerance_int_exact (spec : FieldSpec) (v : ℚ) (a b : ℤ)
    (hε : 0 < spec.epsilon) :
    classify spec (.vFloat v) (.vFloat (v + spec.epsilon / 2)) = .matched ∧
    classify spec (.vFloat v) (.vFloat (v + 2 * spec.epsilon)) = .mismatch ∧
    (classify spec (.vInt a) (.vInt b) = .matched ↔ a = b) := by
  refine ⟨?_, ?_, ?_⟩
  · simp only [classify, valEq]
    rw [if_neg (by simp), if_neg (by simp), if_neg (by simp), if_neg (by simp),
      if_pos]
    rw [decide_eq_true_eq]
    rw [abs_sub_comm, show v + spec.epsilon / 2 - v = spec.epsilon / 2 by ring]
    rw [abs_of_nonneg (by linarith)]
    linarith
  · simp only [classify, valEq]
    rw [if_neg (by simp), if_neg (by simp), if_neg (by simp), if_neg (by simp),
      if_neg]
    rw [decide_eq_true_eq]
    rw [abs_sub_comm, show v + 2 * spec.epsilon - v = 2 * spec.epsilon by ring]
    rw [abs_of_nonneg (by linarith)]
    intro hcontra
    linarith
  · by_cases h : a = b
    · simp [classify, valEq, h]
    · simp [classify, valEq, h]

/-- C5 witness: with ε = 1/100, comparing 3.14 against 3.14 + ε/2 matches
and 3.14 against 3.14 + 2ε mismatches; 5 = 5 matches exactly. -/
theorem c5_float_tolerance_int_exact_witness :
    classify floatSpecW (.vFloat (314 / 100))
        (.vFloat (314 / 100 + floatSpecW.epsilon / 2)) = .matched ∧
    classify floatSpecW (.vFloat (314 / 100))
        (.vFloat (314 / 100 + 2 * floatSpecW.epsilon)) = .mismatch ∧
    (classify floatSpecW (.vInt 5) (.vInt 5) = .matched ↔ (5 : ℤ) = 5) :=
  c5_float_tolerance_int_exact floatSpecW (314 / 100) 5 5 (by norm_num [floatSpecW])

/-! ## C3: duplicate keys abort the run -/

/-- C3: when two records within either dataset share a composite key, the
run aborts with a data-integrity error naming a duplicated key and
produces no outcomes at all. -/
theorem c3_duplicate_key_aborts (cfg : FieldConfig) (src dst : Dataset)
    (h : ¬ (keysOf src).Nodup ∨ ¬ (keysOf dst).Nodup) :
    ∃ k, runValidation cfg src dst = .error (.duplicateKey k) ∧
      (2 ≤ keyCount src k ∨ 2 ≤ keyCount dst k) ∧
      producedOutcomes (runValidation cfg src dst) = [] := by
  rcases hsrc : firstDupKey src with _ | k
  · have hs : (keysOf src).Nodup := (firstDupKey_eq_none_iff src).mp hsrc
    rcases hdst : firstDupKey dst with _ | k
    · have hd : (keysOf dst).Nodup := (firstDupKey_eq_none_iff dst).mp hdst
      rcases h with h | h
      · exact absurd hs h
      · exact absurd hd h
    · refine ⟨k, ?_, Or.inr (firstDupKey_count dst hdst), ?_⟩
      · unfold runValidation
        rw [hsrc, hdst]
      · unfold producedOutcomes runValidation
        rw [hsrc, hdst]
  · refine ⟨k, ?_, Or.inl (firstDupKey_count src hsrc), ?_⟩
    · unfold runValidation
      rw [hsrc]
    · unfold producedOutcomes runValidation
      rw [hsrc]

/-- C3 witness: two source records share the key `(FID = 7, SSR = 3)`; the
run aborts naming a duplicated key and the outcome set is empty. -/
theorem c3_duplicate_key_aborts_witness :
    ∃ k, runValidation cfgW dupSrcW dstW = .error (.duplicateKey k) ∧
      (2 ≤ keyCount dupSrcW k ∨ 2 ≤ keyCount dstW k) ∧
      producedOutcomes (runValidation cfgW dupSrcW dstW) = [] :=
  c3_duplicate_key_aborts cfgW dupSrcW dstW (Or.inl (by decide))

/-! ## C2: completeness of the outcome set -/

/-- The (key, field) projection of the matched outcomes is the matched
keys paired with the common fields. -/
lemma map_keyField_matched (cfg : FieldConfig) (src dst : Dataset) :
    (matchedOutcomes cfg src dst).map (fun o => (o.key, o.field)) =
      ((matchedRows src dst).map (·.key)).flatMap
        (fun k => (commonFields src dst).map (fun f => (k, f))) := by
  unfold matchedOutcomes
  rw [List.map_flatMap, List.flatMap_map]
  refine congrArg _ (funext fun r => ?_)
  rw [List.map_map]
  rfl

/-- The (key, field) projection of the source-only outcomes. -/
lemma map_keyField_srcOnly (cfg : FieldConfig) (src dst : Dataset) :
    (srcOnlyOutcomes cfg src dst).map (fun o => (o.key, o.field)) =
      ((srcOnlyRows src dst).map (·.key)).flatMap
        (fun k => (commonFields src dst).map (fun f => (k, f))) := by
  unfold srcOnlyOutcomes
  rw [List.map_flatMap, List.flatMap_map]
  refine congrArg _ (funext fun r => ?_)
  rw [List.map_map]
  rfl

/-- The (key, field) projection of the destination-only outcomes. -/
lemma map_keyField_dstOnly (cfg : FieldConfig) (src dst : Dataset) :
    (dstOnlyOutcomes cfg src dst).map (fun o => (o.key, o.field)) =
      ((dstOnlyRows src dst).map (·.key)).flatMap
        (fun k => (commonFields src dst).map (fun f => (k, f))) := by
  unfold dstOnlyOutcomes
  rw [List.map_flatMap, List.flatMap_map]
  refine congrArg _ (funext fun r => ?_)
  rw [List.map_map]
  rfl

/-- The (key, field) projection of the whole outcome set is the product of
the aligned keys with the common fields. -/
lemma keyField_allOutcomes (cfg : FieldConfig) (src dst : Dataset) :
    (allOutcomes cfg src dst).map (fun o => (o.key, o.field)) =
      List.product (alignedKeys src dst) (commonFields src dst) := by
  unfold allOutcomes alignedKeys List.product
  rw [List.map_append, List.map_append, map_keyField_matched,
    map_keyField_srcOnly, map_keyField_dstOnly, List.flatMap_append,
    List.flatMap_append]

/-- Outcome count: (matched + source-only + destination-only) records
times the number of common fields. -/
lemma length_allOutcomes (cfg : FieldConfig) (src dst : Dataset) :
    (allOutcomes cfg src dst).length =
      ((matchedRows src dst).length + (srcOnlyRows src dst).length +
        (dstOnlyRows src dst).length) * (commonFields src dst).length := by
  have h := congrArg List.length (keyField_allOutcomes cfg src dst)
  rw [List.length_map] at h
  rw [h]
  have hp : (List.product (alignedKeys src dst) (commonFields src dst)).length =
      (alignedKeys src dst).length * (commonFields src dst).length :=
    List.length_product _ _
  rw [hp]
  unfold alignedKeys
  rw [List.length_append, List.length_append, List.length_map,
    List.length_map, List.length_map]

/-- The aligned keys are nodup when both datasets have nodup keys. -/
lemma nodup_alignedKeys (src dst : Dataset)
    (hs : (keysOf src).Nodup) (hd : (keysOf dst).Nodup) :
    (alignedKeys src dst).Nodup := by
  have hmx : ((matchedRows src dst).map (·.key)).Sublist (keysOf src) :=
    (List.filter_sublist _).map _
  have hsx : ((srcOnlyRows src dst).map (·.key)).Sublist (keysOf src) :=
    (List.filter_sublist _).map _
  have hdx : ((dstOnlyRows src dst).map (·.key)).Sublist (keysOf dst) :=
    (List.filter_sublist _).map _
  have h1 := hmx.nodup hs
  have h2 := hsx.nodup hs
  have h3 := hdx.nodup hd
  have d12 : List.Disjoint ((matchedRows src dst).map (·.key))
      ((srcOnlyRows src dst).map (·.key)) := by
    intro k hk1 hk2
    obtain ⟨r1, hr1, hk1e⟩ := List.mem_map.mp hk1
    obtain ⟨r2, hr2, hk2e⟩ := List.mem_map.mp hk2
    have hp1 := List.of_mem_filter hr1
    have hp2 := List.of_mem_filter hr2
    simp only [decide_eq_true_eq] at hp1 hp2
    rw [hk1e] at hp1
    rw [hk2e] at hp2
    exact hp2 hp1
  have d13 : List.Disjoint ((matchedRows src dst).map (·.key))
      ((dstOnlyRows src dst).map (·.key)) := by
    intro k hk1 hk2
    obtain ⟨r1, hr1, hk1e⟩ := List.mem_map.mp hk1
    obtain ⟨r2, hr2, hk2e⟩ := List.mem_map.mp hk2
    have hp2 := List.of_mem_filter hr2
    simp only [decide_eq_true_eq] at hp2
    rw [hk2e] at hp2
    refine hp2 ?_
    have : r1 ∈ src.rows := List.mem_of_mem_filter hr1
    rw [← hk1e]
    exact List.mem_map.mpr ⟨r1, this, rfl⟩
  have d23 : List.Disjoint ((srcOnlyRows src dst).map (·.key))
      ((dstOnlyRows src dst).map (·.key)) := by
    intro k hk1 hk2
    obtain ⟨r1, hr1, hk1e⟩ := List.mem_map.mp hk1
    obtain ⟨r2, hr2, hk2e⟩ := List.mem_map.mp hk2
    have hp2 := List.of_mem_filter hr2
    simp only [decide_eq_true_eq] at hp2
    rw [hk2e] at hp2
    refine hp2 ?_
    have : r1 ∈ src.rows := List.mem_of_mem_filter hr1
    rw [← hk1e]
    exact List.mem_map.mpr ⟨r1, this, rfl⟩
  unfold alignedKeys
  refine (h1.append h2 d12).append h3 ?_
  rw [List.disjoint_append_left]
  exact ⟨d13, d23⟩

/-- Key/field counting in the outcome set, through the pair projection. -/
lemma countP_keyField (os : List Outcome) (k : Int × Int) (f : String) :
    os.countP (fun o => decide (o.key = k ∧ o.field = f)) =
      (os.map (fun o => (o.key, o.field))).countP
        (fun x => decide (x = (k, f))) := by
  rw [List.countP_map]
  refine List.countP_congr (fun o _ => ?_)
  simp [Prod.ext_iff, Function.comp]

/-- C2: under unique keys within each side, nodup source columns, and a
nonempty common-field set, the run produces exactly one outcome per
(aligned record key, common field) pair, and the total count is |matched| ×
|common fields| + |source-only| × |common fields| + |destination-only| ×
|common fields|. -/
theorem c2_outcome_completeness (cfg : FieldConfig) (src dst : Dataset)
    (hs : (keysOf src).Nodup) (hd : (keysOf dst).Nodup)
    (hcols : src.cols.Nodup) (hc : commonFields src dst ≠ []) :
    runValidation cfg src dst = .ok (allOutcomes cfg src dst) ∧
    (allOutcomes cfg src dst).length =
      (matchedRows src dst).length * (commonFields src dst).length +
      (srcOnlyRows src dst).length * (commonFields src dst).length +
      (dstOnlyRows src dst).length * (commonFields src dst).length ∧
    (∀ k ∈ alignedKeys src dst, ∀ f ∈ commonFields src dst,
      (allOutcomes cfg src dst).countP
        (fun o => decide (o.key = k ∧ o.field = f)) = 1) := by
  refine ⟨runValidation_ok cfg src dst hs hd hc, ?_, ?_⟩
  · rw [length_allOutcomes]
    ring
  · intro k hk f hf
    rw [countP_keyField, keyField_allOutcomes]
    have hndc : (commonFields src dst).Nodup := hcols.filter _
    have hnd : (List.product (alignedKeys src dst)
        (commonFields src dst)).Nodup :=
      (nodup_alignedKeys src dst hs hd).product hndc
    have hmem : (k, f) ∈ List.product (alignedKeys src dst)
        (commonFields src dst) :=
      List.mem_flatMap.mpr ⟨k, hk, List.mem_map.mpr ⟨f, hf, rfl⟩⟩
    exact countP_eq_one_of_nodup_mem hnd hmem

/-- C2 witness: a run with one matched key, one source-only key, one
destination-only key and one common field has 1×1 + 1×1 + 1×1 = 3
outcomes, exactly one per pair. -/
theorem c2_outcome_completeness_witness :
    runValidation cfgW srcW2 dstW2 = .ok (allOutcomes cfgW srcW2 dstW2) ∧
    (allOutcomes cfgW srcW2 dstW2).length =
      (matchedRows srcW2 dstW2).length * (commonFields srcW2 dstW2).length +
      (srcOnlyRows srcW2 dstW2).length * (commonFields srcW2 dstW2).length +
      (dstOnlyRows srcW2 dstW2).length * (commonFields srcW2 dstW2).length ∧
    (∀ k ∈ alignedKeys srcW2 dstW2, ∀ f ∈ commonFields srcW2 dstW2,
      (allOutcomes cfgW srcW2 dstW2).countP
        (fun o => decide (o.key = k ∧ o.field = f)) = 1) :=
  c2_outcome_completeness cfgW srcW2 dstW2 (by decide) (by decide)
    (by decide) (by decide)

/-! ## C4: unparseable values are surfaced, never fatal -/

/-- C4: a non-missing raw value whose coercion fails normalizes to the
distinguishable unparseable result instead of raising; an unparseable side
(with both sides present) classifies as `type_incompatible`; and per-value
parse failures never abort the run — the run succeeds for arbitrary cell
values whenever the structural preconditions hold. -/
theorem c4_unparseable_surfaced_not_fatal :
    (∀ (spec : FieldSpec) (v : Val), isMissingVal spec v = false →
      coerce spec.declType (applyMapping spec v) = .bad →
      normalize spec v = .bad) ∧
    (∀ (spec : FieldSpec) (a b : Val), (a = .bad ∨ b = .bad) →
      a ≠ .na → b ≠ .na → classify spec a b = .typeIncompatible) ∧
    (∀ (cfg : FieldConfig) (src dst : Dataset),
      (keysOf src).Nodup → (keysOf dst).Nodup → commonFields src dst ≠ [] →
      runValidation cfg src dst = .ok (allOutcomes cfg src dst)) := by
  refine ⟨?_, ?_, ?_⟩
  · intro spec v h1 h2
    simp [normalize, h1, h2]
  · intro spec a b hbad ha hb
    simp [classify, ha, hb, hbad]
  · intro cfg src dst hs hd hc
    exact runValidation_ok cfg src dst hs hd hc

/-- C4 witness: `"abc"` on an integer field normalizes to the unparseable
result, which classifies as `type_incompatible` against a present value,
and the concrete run still succeeds. -/
theorem c4_unparseable_surfaced_not_fatal_witness :
    normalize intSpecW (.vStr "abc") = .bad ∧
    classify intSpecW .bad (.vInt 3) = .typeIncompatible ∧
    runValidation cfgW srcW2 dstW2 = .ok (allOutcomes cfgW srcW2 dstW2) :=
  ⟨c4_unparseable_surfaced_not_fatal.1 intSpecW (.vStr "abc")
      (by decide) (by decide),
   c4_unparseable_surfaced_not_fatal.2.1 intSpecW .bad (.vInt 3)
      (Or.inl rfl) (by decide) (by decide),
   c4_unparseable_surfaced_not_fatal.2.2 cfgW srcW2 dstW2
      (by decide) (by decide) (by decide)⟩

/-! ## C6: monthly bucketing -/

/-- C6: every bucket of the Monthly view carries a month of the reporting
window; an outcome is in the bucket of month `m` exactly when its record's
temporal anchor is present with calendar month `m`; outcomes of records
whose anchor is missing or out of window are in no bucket of the view; and
the Overall view counts every outcome regardless. -/
theorem c6_monthly_bucketing (acfg : AggConfig) (src : Dataset)
    (os : List Outcome) :
    (∀ mb ∈ monthlyView acfg src os, mb.1 ∈ acfg.window) ∧
    (∀ m ∈ acfg.window, ∀ o,
      (o ∈ monthlyBucket src os m ↔
        o ∈ os ∧ ∃ d, anchorOf src o.key = some d ∧ d.month = m)) ∧
    (∀ o ∈ os, (∀ d, anchorOf src o.key = some d → d.month ∉ acfg.window) →
      ∀ mb ∈ monthlyView acfg src os, o ∉ mb.2) ∧
    (overallCount os .matched + overallCount os .mismatch +
      overallCount os .missingInSource +
      overallCount os .missingInDestination +
      overallCount os .missingInBoth +
      overallCount os .typeIncompatible = os.length) := by
  refine ⟨?_, ?_, ?_, ?_⟩
  · intro mb hmb
    obtain ⟨m, hm, rfl⟩ := List.mem_map.mp hmb
    exact hm
  · intro m _ o
    unfold monthlyBucket
    rw [List.mem_filter]
    refine and_congr_right (fun _ => ?_)
    cases h : anchorOf src o.key with
    | none => simp [h]
    | some d => simp [h]
  · intro o _ hout mb hmb hmem
    obtain ⟨m, hm, rfl⟩ := List.mem_map.mp hmb
    have := (List.mem_filter.mp hmem).2
    cases h : anchorOf src o.key with
    | none => rw [h] at this; cases this
    | some d =>
      rw [h] at this
      simp only [decide_eq_true_eq] at this
      exact hout d h (this ▸ hm)
  · induction os with
    | nil => simp [overallCount]
    | cons o t ih =>
      simp only [overallCount, List.countP_cons, List.length_cons] at ih ⊢
      cases hk : o.kind <;> simp [hk] <;> omega

/-- C6 witness: with window April–December, the outcome of the record
anchored `2024-06-15` satisfies the June-bucket membership equivalence,
and the outcome of the record anchored `2024-02-01` is in no bucket of the
Monthly view. -/
theorem c6_monthly_bucketing_witness :
    (outW ∈ monthlyBucket anchorSrcW [outW, outW2] 6 ↔
      outW ∈ [outW, outW2] ∧
        ∃ d, anchorOf anchorSrcW outW.key = some d ∧ d.month = 6) ∧
    (∀ mb ∈ monthlyView acfgW anchorSrcW [outW, outW2], outW2 ∉ mb.2) := by
  constructor
  · exact (c6_monthly_bucketing acfgW anchorSrcW [outW, outW2]).2.1 6
      (by decide) outW
  · refine (c6_monthly_bucketing acfgW anchorSrcW [outW, outW2]).2.2.1 outW2
      (by decide) ?_
    intro d hd
    have ha : anchorOf anchorSrcW outW2.key = some ⟨2024, 2, 1⟩ := by decide
    rw [ha] at hd
    obtain rfl := Option.some.inj hd
    decide

/-! ## C8: the Mismatch Pivot -/

/-- C8: the Mismatch Pivot has exactly one row per record key with at
least one outcome of kind `mismatch`, `type_incompatible`,
`missing_in_source` or `missing_in_destination`; each row's cells are
exactly that key's outcomes of those kinds (carrying the source and
destination values); outcomes of kind `match` and `missing_in_both` never
appear. -/
theorem c8_mismatch_pivot_rows (os : List Outcome) :
    ((mismatchPivot os).map (·.key)).Nodup ∧
    (∀ k, k ∈ (mismatchPivot os).map (·.key) ↔
      ∃ o ∈ os, o.key = k ∧ reportable o.kind = true) ∧
    (∀ row ∈ mismatchPivot os, ∀ o,
      (o ∈ row.cells ↔ o ∈ os ∧ o.key = row.key ∧
        reportable o.kind = true)) ∧
    (∀ row ∈ mismatchPivot os, ∀ o ∈ row.cells,
      o.kind ≠ .matched ∧ o.kind ≠ .missingInBoth) := by
  have hmapkey : (mismatchPivot os).map (·.key) = pivotKeys os := by
    unfold mismatchPivot
    rw [List.map_map]
    exact List.map_id _
  have hcells : ∀ row ∈ mismatchPivot os, ∀ o,
      (o ∈ row.cells ↔ o ∈ os ∧ o.key = row.key ∧
        reportable o.kind = true) := by
    intro row hrow o
    obtain ⟨k, _, rfl⟩ := List.mem_map.mp hrow
    unfold pivotRow
    rw [List.mem_filter]
    simp [Bool.and_eq_true]
  refine ⟨?_, ?_, hcells, ?_⟩
  · rw [hmapkey]
    exact List.nodup_dedup _
  · intro k
    rw [hmapkey]
    unfold pivotKeys
    rw [List.mem_dedup, List.mem_map]
    constructor
    · rintro ⟨o, ho, rfl⟩
      have := List.mem_filter.mp ho
      exact ⟨o, this.1, rfl, this.2⟩
    · rintro ⟨o, ho, hk, hr⟩
      exact ⟨o, List.mem_filter.mpr ⟨ho, hr⟩, hk⟩
  · intro row hrow o ho
    have hrep := ((hcells row hrow o).mp ho).2.2
    constructor <;> intro hkind <;> rw [hkind] at hrep <;>
      simp [reportable] at hrep

/-- C8 witness: with one mismatch outcome and one match outcome, the pivot
keys are nodup, the mismatching key is present exactly by the membership
equivalence, and no pivot cell carries a `match` or `missing_in_both`
outcome. -/
theorem c8_mismatch_pivot_rows_witness :
    ((mismatchPivot [outW, outW2]).map (·.key)).Nodup ∧
    ((1, 1) ∈ (mismatchPivot [outW, outW2]).map (·.key) ↔
      ∃ o ∈ [outW, outW2], o.key = (1, 1) ∧ reportable o.kind = true) ∧
    (∀ o ∈ (pivotRow [outW, outW2] (1, 1)).cells,
      o.kind ≠ .matched ∧ o.kind ≠ .missingInBoth) :=
  ⟨(c8_mismatch_pivot_rows [outW, outW2]).1,
   (c8_mismatch_pivot_rows [outW, outW2]).2.1 (1, 1),
   (c8_mismatch_pivot_rows [outW, outW2]).2.2.2
      (pivotRow [outW, outW2] (1, 1)) (by decide)⟩

/-! ## C7: per-variable mismatch rate and problem ranking -/

/-- The ranking order is transitive. -/
lemma rankLE_trans (os : List Outcome) :
    ∀ a b c, rankLE os a b = true → rankLE os b c = true →
      rankLE os a c = true := by
  intro a b c hab hbc
  simp only [rankLE, Bool.or_eq_true, Bool.and_eq_true, decide_eq_true_eq]
    at hab hbc ⊢
  rcases hab with h1 | ⟨h1, h2⟩ <;> rcases hbc with h3 | ⟨h3, h4⟩
  · exact Or.inl (lt_trans h3 h1)
  · exact Or.inl (by rw [← h3]; exact h1)
  · exact Or.inl (by rw [h1]; exact h3)
  · exact Or.inr ⟨h1.trans h3, le_trans h4 h2⟩

/-- The ranking order is total. -/
lemma rankLE_total (os : List Outcome) :
    ∀ a b, (rankLE os a b || rankLE os b a) = true := by
  intro a b
  simp only [rankLE, Bool.or_eq_true, Bool.and_eq_true, decide_eq_true_eq]
  rcases lt_trichotomy (mismatchRate os a) (mismatchRate os b) with h | h | h
  · exact Or.inr (Or.inl h)
  · rcases le_total (volumeOf os a) (volumeOf os b) with hv | hv
    · exact Or.inr (Or.inr ⟨h.symm, hv⟩)
    · exact Or.inl (Or.inr ⟨h, hv⟩)
  · exact Or.inl (Or.inl h)

/-- C7: the per-variable mismatch rate is mismatches / (mismatches +
matches); the top-N problematic list is ordered by rate, ties broken by
higher volume; and it never contains a field whose mismatch rate is 0. -/
theorem c7_problem_ranking (acfg : AggConfig) (os : List Outcome) :
    (∀ f, mismatchCount os f + matchCount os f ≠ 0 →
      mismatchRate os f = (mismatchCount os f : ℚ) /
        ((mismatchCount os f : ℚ) + (matchCount os f : ℚ))) ∧
    List.Pairwise (fun f g => mismatchRate os g < mismatchRate os f ∨
      (mismatchRate os f = mismatchRate os g ∧
        volumeOf os g ≤ volumeOf os f)) (topProblematic acfg os) ∧
    (∀ f ∈ topProblematic acfg os, mismatchRate os f ≠ 0) := by
  refine ⟨?_, ?_, ?_⟩
  · intro f h
    rw [mismatchRate, if_neg h]
  · have hp := @List.sorted_mergeSort _ (rankLE os) (rankLE_trans os)
      (rankLE_total os) (problemFields os)
    have ht : (topProblematic acfg os).Sublist
        ((problemFields os).mergeSort (rankLE os)) :=
      List.take_sublist _ _
    refine (List.Pairwise.sublist ht hp).imp (fun h => ?_)
    simpa only [rankLE, Bool.or_eq_true, Bool.and_eq_true,
      decide_eq_true_eq] using h
  · intro f hf
    have h1 : f ∈ (problemFields os).mergeSort (rankLE os) :=
      (List.take_sublist _ _).mem hf
    have h2 : f ∈ problemFields os :=
      (List.mergeSort_perm (problemFields os) (rankLE os)).mem_iff.mp h1
    have := List.of_mem_filter h2
    simpa using this

/-- C7 witness: with a single mismatch outcome on `glucose`, the rate
equation holds at `glucose` and no ranked field has rate 0. -/
theorem c7_problem_ranking_witness :
    mismatchRate [outW] "glucose" = (mismatchCount [outW] "glucose" : ℚ) /
      ((mismatchCount [outW] "glucose" : ℚ) +
        (matchCount [outW] "glucose" : ℚ)) ∧
    (∀ f ∈ topProblematic acfgW [outW], mismatchRate [outW] f ≠ 0) :=
  ⟨(c7_problem_ranking acfgW [outW]).1 "glucose" (by decide),
   (c7_problem_ranking acfgW [outW]).2.2⟩

/-! ## C9: idempotence of normalization

The canonical-form machinery first: case-folding and trimming are
idempotent, and they commute. -/

/-- No case-folded output is itself an uppercase table key. -/
lemma lowerPairs_snd_not_found :
    ∀ p ∈ lowerPairs,
      lowerPairs.find? (fun q => decide (q.1 = p.2)) = none := by
  decide

/-- No character of the case-folding table is whitespace. -/
lemma lowerPairs_not_ws :
    ∀ p ∈ lowerPairs, isWS p.1 = false ∧ isWS p.2 = false := by
  decide

/-- Unfolding `lowerChar` on a found table entry. -/
lemma lowerChar_of_found {c : Char} {p : Char × Char}
    (h : lowerPairs.find? (fun q => decide (q.1 = c)) = some p) :
    lowerChar c = p.2 := by
  unfold lowerChar
  rw [h]

/-- Unfolding `lowerChar` on a character outside the table. -/
lemma lowerChar_of_not_found {c : Char}
    (h : lowerPairs.find? (fun q => decide (q.1 = c)) = none) :
    lowerChar c = c := by
  unfold lowerChar
  rw [h]

/-- Case-folding one character is idempotent. -/
lemma lowerChar_idem (c : Char) : lowerChar (lowerChar c) = lowerChar c := by
  cases h : lowerPairs.find? (fun q => decide (q.1 = c)) with
  | none => rw [lowerChar_of_not_found h, lowerChar_of_not_found h]
  | some p =>
    rw [lowerChar_of_found h,
      lowerChar_of_not_found
        (lowerPairs_snd_not_found p (List.mem_of_find?_eq_some h))]

/-- Case-folding preserves whitespace-ness. -/
lemma isWS_lowerChar (c : Char) : isWS (lowerChar c) = isWS c := by
  cases h : lowerPairs.find? (fun q => decide (q.1 = c)) with
  | none => rw [lowerChar_of_not_found h]
  | some p =>
    have hc : p.1 = c := by
      have := List.find?_some h
      simpa using this
    have hws := lowerPairs_not_ws p (List.mem_of_find?_eq_some h)
    rw [lowerChar_of_found h, hws.2, ← hc, hws.1]

/-- Dropping a satisfied run twice is the same as once. -/
lemma dropWhile_dropWhile {α : Type} (p : α → Bool) (l : List α) :
    (l.dropWhile p).dropWhile p = l.dropWhile p := by
  induction l with
  | nil => rfl
  | cons a t ih =>
    by_cases h : p a
    · simp [List.dropWhile_cons, h, ih]
    · simp [List.dropWhile_cons, h]

/-- The head surviving `dropWhile` fails the predicate. -/
lemma head?_dropWhile {α : Type} (p : α → Bool) (l : List α) :
    ∀ c, (l.dropWhile p).head? = some c → p c = false := by
  induction l with
  | nil => intro c h; cases h
  | cons a t ih =>
    intro c h
    by_cases hpa : p a
    · rw [List.dropWhile_cons, if_pos hpa] at h
      exact ih c h
    · rw [List.dropWhile_cons, if_neg hpa] at h
      simp only [List.head?_cons, Option.some.injEq] at h
      subst h
      exact Bool.eq_false_iff.mpr hpa

/-- A list whose head fails the predicate is left whole by `dropWhile`. -/
lemma dropWhile_eq_self_of_head {α : Type} (p : α → Bool) (l : List α)
    (h : ∀ c, l.head? = some c → p c = false) : l.dropWhile p = l := by
  cases l with
  | nil => rfl
  | cons a t =>
    have := h a rfl
    simp [List.dropWhile_cons, this]

/-- `dropWhile` removes a decomposable prefix run. -/
lemma dropWhile_suffix_decomp {α : Type} (p : α → Bool) (l : List α) :
    ∃ r, r ++ l.dropWhile p = l := by
  induction l with
  | nil => exact ⟨[], rfl⟩
  | cons a t ih =>
    by_cases h : p a
    · obtain ⟨r, hr⟩ := ih
      exact ⟨a :: r, by simp [List.dropWhile_cons, h, hr]⟩
    · exact ⟨[], by simp [List.dropWhile_cons, h]⟩

/-- Trimming is idempotent. -/
lemma trimList_idem (l : List Char) : trimList (trimList l) = trimList l := by
  unfold trimList
  have h1 : (((l.dropWhile isWS).reverse.dropWhile
      isWS).reverse).dropWhile isWS =
      ((l.dropWhile isWS).reverse.dropWhile isWS).reverse := by
    apply dropWhile_eq_self_of_head
    intro c hc
    obtain ⟨r, hr⟩ := dropWhile_suffix_decomp isWS (l.dropWhile isWS).reverse
    have hab : l.dropWhile isWS =
        ((l.dropWhile isWS).reverse.dropWhile isWS).reverse ++ r.reverse := by
      have := congrArg List.reverse hr
      simpa [List.reverse_append] using this.symm
    have hha : (l.dropWhile isWS).head? = some c := by
      rw [hab]
      cases hbr : ((l.dropWhile isWS).reverse.dropWhile isWS).reverse with
      | nil => rw [hbr] at hc; cases hc
      | cons x xs =>
        rw [hbr] at hc
        simp only [List.head?_cons, Option.some.injEq] at hc
        simp [hc]
    exact head?_dropWhile isWS l c hha
  rw [h1, List.reverse_reverse, dropWhile_dropWhile]

/-- Case-folding commutes with dropping whitespace. -/
lemma map_lowerChar_dropWhile (l : List Char) :
    (l.dropWhile isWS).map lowerChar = (l.map lowerChar).dropWhile isWS := by
  induction l with
  | nil => rfl
  | cons a t ih =>
    by_cases h : isWS a
    · have h2 : isWS (lowerChar a) = true := by rw [isWS_lowerChar, h]
      simp [List.dropWhile_cons, h, h2, ih]
    · have h2 : isWS (lowerChar a) = false := by
        rw [isWS_lowerChar]
        exact Bool.eq_false_iff.mpr h
      simp [List.dropWhile_cons, h, h2]

/-- Case-folding commutes with trimming. -/
lemma map_lowerChar_trimList (l : List Char) :
    (trimList l).map lowerChar = trimList (l.map lowerChar) := by
  unfold trimList
  rw [List.map_reverse, map_lowerChar_dropWhile, List.map_reverse,
    map_lowerChar_dropWhile]

/-- Case-folding a list twice is the same as once. -/
lemma map_lowerChar_idem (l : List Char) :
    (l.map lowerChar).map lowerChar = l.map lowerChar := by
  rw [List.map_map]
  exact List.map_congr_left (fun a _ => lowerChar_idem a)

/-- The canonical character-list form is idempotent. -/
lemma canonList_idem (l : List Char) :
    canonList (canonList l) = canonList l := by
  unfold canonList
  rw [map_lowerChar_trimList, map_lowerChar_idem, trimList_idem]

/-- The canonical string form is idempotent. -/
lemma canon_canon (s : String) : canon (canon s) = canon s := by
  unfold canon
  rw [show (String.mk (canonList s.data)).data = canonList s.data from rfl,
    canonList_idem]

/-- Coercing the unparseable sentinel leaves it unparseable. -/
lemma coerce_bad (t : FieldType) : coerce t .bad = .bad := by
  cases t <;> rfl

/-- The canonical missing value renormalizes to itself. -/
lemma normalize_na (spec : FieldSpec) : normalize spec .na = .na := rfl

/-- The unparseable sentinel renormalizes to itself. -/
lemma normalize_bad (spec : FieldSpec) : normalize spec .bad = .bad := by
  have h : normalize spec .bad = coerce spec.declType .bad := rfl
  rw [h, coerce_bad]

/-- Rounding to a fixed precision is idempotent. -/
lemma roundTo_idem (p : Nat) (q : ℚ) :
    roundTo p (roundTo p q) = roundTo p q := by
  unfold roundTo
  rw [div_mul_cancel₀ _ (by positivity : ((10 : ℚ) ^ p) ≠ 0), round_intCast]

/-- An integer value renormalizes to itself on an integer field. -/
lemma normalize_vInt (spec : FieldSpec) (ht : spec.declType = .intType)
    (n : Int) : normalize spec (.vInt n) = .vInt n := by
  have h : normalize spec (.vInt n) = coerce spec.declType (.vInt n) := rfl
  rw [h, ht]
  exact rfl

/-- A float value renormalizes to its rounding on a float field. -/
lemma normalize_vFloat (spec : FieldSpec) (p : Nat)
    (ht : spec.declType = .floatType p) (q : ℚ) :
    normalize spec (.vFloat q) = .vFloat (roundTo p q) := by
  have h : normalize spec (.vFloat q) = coerce spec.declType (.vFloat q) := rfl
  rw [h, ht]
  exact rfl

/-- A boolean value renormalizes to itself on a boolean field. -/
lemma normalize_vBool (spec : FieldSpec) (ht : spec.declType = .boolType)
    (b : Bool) : normalize spec (.vBool b) = .vBool b := by
  have h : normalize spec (.vBool b) = coerce spec.declType (.vBool b) := rfl
  rw [h, ht]
  exact rfl

/-- A date value renormalizes to itself on a date field. -/
lemma normalize_vDate (spec : FieldSpec) (ht : spec.declType = .dateType)
    (d : Date) : normalize spec (.vDate d) = .vDate d := by
  have h : normalize spec (.vDate d) = coerce spec.declType (.vDate d) := rfl
  rw [h, ht]
  exact rfl

/-- Missingness is invariant under canonicalization of a string. -/
lemma isMissingVal_canon (spec : FieldSpec) (s : String) :
    isMissingVal spec (.vStr (canon s)) = isMissingVal spec (.vStr s) := by
  show decide (canon (canon s) ∈ spec.sentinels.map canon) =
    decide (canon s ∈ spec.sentinels.map canon)
  rw [canon_canon]

/-- The mapping lookup is invariant under canonicalization of a string. -/
lemma find?_mapping_canon (spec : FieldSpec) (s : String) :
    spec.mapping.find? (fun q => decide (canon q.1 = canon (canon s))) =
      spec.mapping.find? (fun q => decide (canon q.1 = canon s)) := by
  have h : (fun q : String × String => decide (canon q.1 = canon (canon s)))
      = (fun q => decide (canon q.1 = canon s)) := by
    funext q
    rw [canon_canon]
  rw [h]

/-- A canonical string neither missing nor matching a mapping code
renormalizes to itself on a string field. -/
lemma normalize_vStr_canon (spec : FieldSpec) (ht : spec.declType = .strType)
    (s : String) (hmiss : isMissingVal spec (.vStr s) = false)
    (hfind : spec.mapping.find?
      (fun q => decide (canon q.1 = canon s)) = none) :
    normalize spec (.vStr (canon s)) = .vStr (canon s) := by
  have h0 : normalize spec (.vStr (canon s)) =
      if isMissingVal spec (.vStr (canon s)) then .na
      else coerce spec.declType (applyMapping spec (.vStr (canon s))) := rfl
  rw [h0, isMissingVal_canon, hmiss]
  have h1 : applyMapping spec (.vStr (canon s)) =
      match spec.mapping.find?
        (fun q => decide (canon q.1 = canon (canon s))) with
      | some p => .vStr p.2
      | none => .vStr (canon s) := rfl
  rw [h1, find?_mapping_canon, hfind]
  simp only [Bool.false_eq_true, if_false, ht]
  show Val.vStr (canon (canon s)) = .vStr (canon s)
  rw [canon_canon]

/-- C9 (amended): normalization is idempotent for every field
specification whose mapping cannot re-fire — no label, canonically, is
itself a mapping code or a missing sentinel (in particular, for every
specification without a mapping) — and for every raw value. -/
theorem c9_normalize_idempotent_stable (spec : FieldSpec)
    (hst : mappingStable spec) (v : Val) :
    normalize spec (normalize spec v) = normalize spec v := by
  by_cases hm : isMissingVal spec v = true
  · rw [show normalize spec v = .na by simp [normalize, hm]]
    exact normalize_na spec
  · have hm' : isMissingVal spec v = false := Bool.eq_false_iff.mpr hm
    have h1 : normalize spec v = coerce spec.declType (applyMapping spec v) := by
      simp [normalize, hm']
    rw [h1]
    cases ht : spec.declType with
    | intType =>
      cases hw : applyMapping spec v with
      | na => exact normalize_bad spec
      | bad => rw [coerce_bad]; exact normalize_bad spec
      | vInt n => exact normalize_vInt spec ht n
      | vFloat q => exact normalize_bad spec
      | vBool b => exact normalize_bad spec
      | vDate d => exact normalize_bad spec
      | vStr s =>
        cases hi : parseIntL (canon s).data with
        | some n =>
          rw [show coerce .intType (.vStr s) = .vInt n by
            show (match parseIntL (canon s).data with
              | some n => Val.vInt n
              | none => Val.bad) = Val.vInt n
            rw [hi]]
          exact normalize_vInt spec ht n
        | none =>
          rw [show coerce .intType (.vStr s) = .bad by
            show (match parseIntL (canon s).data with
              | some n => Val.vInt n
              | none => Val.bad) = Val.bad
            rw [hi]]
          exact normalize_bad spec
    | floatType p =>
      cases hw : applyMapping spec v with
      | na => exact normalize_bad spec
      | bad => rw [coerce_bad]; exact normalize_bad spec
      | vInt n =>
        rw [show coerce (.floatType p) (.vInt n) =
          .vFloat (roundTo p (n : ℚ)) from rfl]
        rw [normalize_vFloat spec p ht, roundTo_idem]
      | vFloat q =>
        rw [show coerce (.floatType p) (.vFloat q) =
          .vFloat (roundTo p q) from rfl]
        rw [normalize_vFloat spec p ht, roundTo_idem]
      | vBool b => exact normalize_bad spec
      | vDate d => exact normalize_bad spec
      | vStr s =>
        cases hr : parseRat (canon s) with
        | some q =>
          rw [show coerce (.floatType p) (.vStr s) = .vFloat (roundTo p q) by
            show (match parseRat (canon s) with
              | some q => Val.vFloat (roundTo p q)
              | none => Val.bad) = Val.vFloat (roundTo p q)
            rw [hr]]
          rw [normalize_vFloat spec p ht, roundTo_idem]
        | none =>
          rw [show coerce (.floatType p) (.vStr s) = .bad by
            show (match parseRat (canon s) with
              | some q => Val.vFloat (roundTo p q)
              | none => Val.bad) = Val.bad
            rw [hr]]
          exact normalize_bad spec
    | boolType =>
      cases hw : applyMapping spec v with
      | na => exact normalize_bad spec
      | bad => rw [coerce_bad]; exact normalize_bad spec
      | vInt n => exact normalize_bad spec
      | vFloat q => exact normalize_bad spec
      | vBool b => exact normalize_vBool spec ht b
      | vDate d => exact normalize_bad spec
      | vStr s =>
        by_cases h1 : canon s ∈ truthyLits
        · rw [show coerce .boolType (.vStr s) = .vBool true by
            simp [coerce, h1]]
          exact normalize_vBool spec ht true
        · by_cases h2 : canon s ∈ falsyLits
          · rw [show coerce .boolType (.vStr s) = .vBool false by
              simp [coerce, h1, h2]]
            exact normalize_vBool spec ht false
          · rw [show coerce .boolType (.vStr s) = .bad by
              simp [coerce, h1, h2]]
            exact normalize_bad spec
    | dateType =>
      cases hw : applyMapping spec v with
      | na => exact normalize_bad spec
      | bad => rw [coerce_bad]; exact normalize_bad spec
      | vInt n => exact normalize_bad spec
      | vFloat q => exact normalize_bad spec
      | vBool b => exact normalize_bad spec
      | vDate d => exact normalize_vDate spec ht d
      | vStr s =>
        cases hd : parseDateAny (canon s) with
        | some d =>
          rw [show coerce .dateType (.vStr s) = .vDate d by
            show (match parseDateAny (canon s) with
              | some d => Val.vDate d
              | none => Val.bad) = Val.vDate d
            rw [hd]]
          exact normalize_vDate spec ht d
        | none =>
          rw [show coerce .dateType (.vStr s) = .bad by
            show (match parseDateAny (canon s) with
              | some d => Val.vDate d
              | none => Val.bad) = Val.bad
            rw [hd]]
          exact normalize_bad spec
    | strType =>
      cases hv : v with
      | na => rw [hv] at hm'; cases hm'
      | bad =>
        rw [show applyMapping spec .bad = .bad from rfl, coerce_bad]
        exact normalize_bad spec
      | vInt n =>
        rw [show applyMapping spec (.vInt n) = .vInt n from rfl]
        exact normalize_bad spec
      | vFloat q =>
        rw [show applyMapping spec (.vFloat q) = .vFloat q from rfl]
        exact normalize_bad spec
      | vBool b =>
        rw [show applyMapping spec (.vBool b) = .vBool b from rfl]
        exact normalize_bad spec
      | vDate d =>
        rw [show applyMapping spec (.vDate d) = .vDate d from rfl]
        exact normalize_bad spec
      | vStr s =>
        rw [hv] at hm'
        cases hf : spec.mapping.find?
            (fun q => decide (canon q.1 = canon s)) with
        | none =>
          rw [show applyMapping spec (.vStr s) = .vStr s by
            show (match spec.mapping.find?
                (fun q => decide (canon q.1 = canon s)) with
              | some p => Val.vStr p.2
              | none => Val.vStr s) = Val.vStr s
            rw [hf]]
          rw [show coerce .strType (.vStr s) = .vStr (canon s) from rfl]
          exact normalize_vStr_canon spec ht s hm' hf
        | some p =>
          rw [show applyMapping spec (.vStr s) = .vStr p.2 by
            show (match spec.mapping.find?
                (fun q => decide (canon q.1 = canon s)) with
              | some p => Val.vStr p.2
              | none => Val.vStr s) = Val.vStr p.2
            rw [hf]]
          rw [show coerce .strType (.vStr p.2) = .vStr (canon p.2) from rfl]
          obtain ⟨hfind, hsent⟩ := hst p (List.mem_of_find?_eq_some hf)
          refine normalize_vStr_canon spec ht p.2 ?_ hfind
          show decide (canon p.2 ∈ spec.sentinels.map canon) = false
          exact decide_eq_false hsent

/-- C9 counterexample: with the mapping `a → b, b → c` on a string field,
normalizing `"a"` gives `"b"`, but normalizing again gives `"c"` — the
unrestricted idempotence claim fails. -/
theorem c9_normalize_not_idempotent_counterexample :
    normalize chainSpecW (normalize chainSpecW (.vStr "a")) ≠
      normalize chainSpecW (.vStr "a") := by
  decide

/-- C9 witness: on an integer field without a mapping, normalizing the
already-normalized `" 42 "` changes nothing. -/
theorem c9_normalize_idempotent_stable_witness :
    normalize intSpecW (normalize intSpecW (.vStr " 42 ")) =
      normalize intSpecW (.vStr " 42 ") :=
  c9_normalize_idempotent_stable intSpecW
    (by intro p hp; simp [intSpecW] at hp) (.vStr " 42 ")

end MBNeuro
